import Mathlib

/-!
Verification development for the `react-hook-form-handler-sample` repository.

The repository is a thin adapter over the external form-state engine
(react-hook-form): a `useFormHandler` hook exposing a façade
(`setFormValue`, `formState`, `fieldState`, `clearErrors`, `resetForm`,
`debugMode`, ...), a `withBaseField` higher-order component injecting
form-bound props, and React context plumbing (`useDemoFormContext`).

We shallowly embed the façade functions directly from the source
(`useFormHandler` in the hooks file, `WithFormHandlerField` in the HOC file,
`useDemoFormContext` in `context.ts`).  The external form engine is modelled
as an explicit state record (`FormEngine`) whose operations reproduce the
observable behaviour of the engine API the façade consumes: `setValue`,
`getValues`, `formState`, `getFieldState`, `clearErrors`, `reset`.
Form values are association lists with stable key order, modelling plain
JS objects; lodash `isEqual` on such objects is extensional key-by-key
equality, embedded as `isEqualDeep`.
-/

/-- Field names are string paths, as in the source (`Path<T>`). -/
abbrev FieldName := String

/-- Primitive JS values stored in form fields. -/
inductive JsonVal where
  | str (s : String)
  | num (n : Int)
  | boolean (b : Bool)
  | null
deriving DecidableEq, Repr

/-- Look up the value bound to key `k` in an association list
(first binding wins, as in a JS object where keys are unique). -/
def lookupKey {β : Type} (k : String) : List (String × β) → Option β
  | [] => none
  | (k₁, v) :: rest => if k₁ = k then some v else lookupKey k rest

/-- Write key `k` to value `v`: replace the first binding of `k` in place
(preserving key order, as JS property assignment does), or append a new
binding when `k` is absent. -/
def setEntry {β : Type} : List (String × β) → String → β → List (String × β)
  | [], k, v => [(k, v)]
  | (k₁, v₁) :: rest, k, v =>
      if k₁ = k then (k, v) :: rest else (k₁, v₁) :: setEntry rest k v

/-- Delete the first binding of key `k` (JS `delete obj[k]` / lodash `unset`
on an object with unique keys). -/
def eraseEntry {β : Type} : List (String × β) → String → List (String × β)
  | [], _ => []
  | (k₁, v₁) :: rest, k => if k₁ = k then rest else (k₁, v₁) :: eraseEntry rest k

/-- A map of form values: one binding per registered field. -/
abbrev ValueMap := List (FieldName × JsonVal)

/-- A map from field name to validation error message. -/
abbrev ErrorMap := List (FieldName × String)

/-- Extensional equality of association lists viewed as maps: every key is
bound to the same value (or unbound) on both sides.  This is the meaning of
"deeply equal" for the flat JS objects handled here. -/
def MapEquiv {β : Type} (a b : List (String × β)) : Prop :=
  ∀ k, lookupKey k a = lookupKey k b

/-- Embedding of lodash `isEqual` on two flat JS objects: each binding of
either object must be bound identically in the other (key order and
duplicate shadowed bindings are invisible to JS objects). -/
def isEqualDeep {β : Type} [DecidableEq β] (a b : List (String × β)) : Bool :=
  a.all (fun p => decide (lookupKey p.1 b = some p.2)) &&
  b.all (fun p => decide (lookupKey p.1 a = some p.2))

/-- A validation schema: yields the error message a field's value violates,
or `none` when the value conforms (models the yup schema fed to the
resolver). -/
abbrev Schema := FieldName → JsonVal → Option String

/-- Run full-form schema validation, as the resolver does on every
validation pass: one error entry per violating field. -/
def formErrors (schema : Schema) (values : ValueMap) : ErrorMap :=
  values.filterMap (fun p => (schema p.1 p.2).map (fun m => (p.1, m)))

/-- State of the external form engine as observed through the API surface
the façade consumes: default values, live values, error map, dirty and
touched field sets, and the whole-form validity flag. -/
structure FormEngine where
  defaultValues : ValueMap
  values : ValueMap
  errors : ErrorMap
  dirtyFields : List FieldName
  touchedFields : List FieldName
  isValid : Bool
deriving DecidableEq, Repr

/-- Engine state at mount: values equal the configured defaults, no errors,
nothing dirty or touched; the validity flag starts false (no validation
pass has run yet). -/
def FormEngine.init (defaults : ValueMap) : FormEngine :=
  { defaultValues := defaults
    values := defaults
    errors := []
    dirtyFields := []
    touchedFields := []
    isValid := false }

/-- The engine's `getValues()`: the live form values. -/
def FormEngine.getValues (e : FormEngine) : ValueMap :=
  e.values

/-- Options accepted by the engine's `setValue` (`SetValueConfig`). -/
structure SetValueConfig where
  shouldValidate : Bool
  shouldDirty : Bool
deriving DecidableEq, Repr

/-- The engine's `setValue(name, value, config)`: writes the value; when
`shouldDirty` is set, the field's dirty flag becomes "value differs from
its default" (the engine deep-compares against the default, un-dirtying a
field written back to its default); when `shouldValidate` is set, a
full-form validation pass recomputes the error map and the validity flag. -/
def FormEngine.setValue (schema : Schema) (e : FormEngine) (name : FieldName)
    (v : JsonVal) (cfg : SetValueConfig) : FormEngine :=
  let newValues := setEntry e.values name v
  let newDirty :=
    if cfg.shouldDirty then
      if lookupKey name e.defaultValues = some v then
        e.dirtyFields.erase name
      else
        if name ∈ e.dirtyFields then e.dirtyFields else name :: e.dirtyFields
    else e.dirtyFields
  let newErrors := if cfg.shouldValidate then formErrors schema newValues else e.errors
  { e with
    values := newValues
    dirtyFields := newDirty
    errors := newErrors
    isValid := if cfg.shouldValidate then (formErrors schema newValues).isEmpty else e.isValid }

/-- Per-field state as returned by the engine's `getFieldState(name)`:
`error` is the raw engine error, absent (`none` / JS `undefined`) when the
field has no validation error. -/
structure EngineFieldState where
  isDirty : Bool
  isTouched : Bool
  invalid : Bool
  error : Option String
deriving DecidableEq, Repr

/-- The engine's `getFieldState(name)`. -/
def FormEngine.getFieldState (e : FormEngine) (name : FieldName) : EngineFieldState :=
  { isDirty := decide (name ∈ e.dirtyFields)
    isTouched := decide (name ∈ e.touchedFields)
    invalid := (lookupKey name e.errors).isSome
    error := lookupKey name e.errors }

/-- The engine's `clearErrors(name)`: drop one field's error. -/
def FormEngine.clearErrorsField (e : FormEngine) (name : FieldName) : FormEngine :=
  { e with errors := eraseEntry e.errors name }

/-- The engine's `clearErrors(names)`: drop each listed field's error. -/
def FormEngine.clearErrorsFields (e : FormEngine) (names : List FieldName) : FormEngine :=
  names.foldl FormEngine.clearErrorsField e

/-- The engine's `clearErrors()` with no argument: drop every error. -/
def FormEngine.clearErrorsAll (e : FormEngine) : FormEngine :=
  { e with errors := [] }

/-- Reset options (`KeepStateOptions`): which state slices survive a reset. -/
structure KeepStateOptions where
  keepErrors : Bool
  keepDirty : Bool
  keepTouched : Bool
deriving DecidableEq, Repr

/-- The engine's `reset(values, options)`: replaces both the default values
and the live values with `v`; errors, dirty flags and touched flags are
wiped unless the corresponding keep-option is set. -/
def FormEngine.reset (e : FormEngine) (v : ValueMap) (opts : KeepStateOptions) : FormEngine :=
  { defaultValues := v
    values := v
    errors := if opts.keepErrors then e.errors else []
    dirtyFields := if opts.keepDirty then e.dirtyFields else []
    touchedFields := if opts.keepTouched then e.touchedFields else []
    isValid := e.isValid }

/-! ### The form-handler façade (`useFormHandler` in the hooks source file)

Each façade operation closes over the construction props (`props.schema`,
`props.defaultValues`); here those appear as explicit first parameters. -/

/-- Partial per-call options in `args.options` of `setFormValue`: a JS
object that may or may not carry each key (`none` models an absent key). -/
structure SetValueOptionsArg where
  shouldValidate : Option Bool
  shouldDirty : Option Bool
deriving DecidableEq, Repr

/-- Argument record of the façade's `setFormValue` (`SetValueProps`). -/
structure SetValueProps where
  name : FieldName
  value : JsonVal
  options : Option SetValueOptionsArg
deriving DecidableEq, Repr

/-- The object spread `{ shouldValidate: true, shouldDirty: true,
...args.options }` in `setFormValue`: defaults are `true`, and a key
present in the caller's options overrides the default. -/
def mergeSetValueConfig (opts : Option SetValueOptionsArg) : SetValueConfig :=
  { shouldValidate := ((opts.bind (fun o => o.shouldValidate)).getD true)
    shouldDirty := ((opts.bind (fun o => o.shouldDirty)).getD true) }

/-- Façade `setFormValue(args)`: forwards to the engine's `setValue` with
the merged options. -/
def setFormValue (schema : Schema) (e : FormEngine) (args : SetValueProps) : FormEngine :=
  e.setValue schema args.name args.value (mergeSetValueConfig args.options)

/-- Return shape of the façade's `formState()`. -/
structure FormStateResult where
  defaultValues : ValueMap
  currentState : ValueMap
  isValid : Bool
  errors : ErrorMap
  hasBeenUpdated : Bool
deriving DecidableEq, Repr

/-- Façade `formState()`: destructures the engine's form state and returns
`defaultValues`, the live values as `currentState`, the NEGATED validity
flag (`isValid: !isValid` in the source), the error map, and
`hasBeenUpdated := !isEqual(defaultValues, getValues())`. -/
def formState (e : FormEngine) : FormStateResult :=
  { defaultValues := e.defaultValues
    currentState := e.getValues
    isValid := !e.isValid
    errors := e.errors
    hasBeenUpdated := !(isEqualDeep e.defaultValues e.getValues) }

/-- Return shape of the façade's `fieldState(name)`. -/
structure FieldStateResult where
  isDirty : Bool
  isTouched : Bool
  invalid : Bool
  error : String
deriving DecidableEq, Repr

/-- Façade `fieldState(name)`: destructures the engine's `getFieldState`
and normalizes the error to `error?.message ?? ''`. -/
def fieldState (e : FormEngine) (name : FieldName) : FieldStateResult :=
  let fs := e.getFieldState name
  { isDirty := fs.isDirty
    isTouched := fs.isTouched
    invalid := fs.invalid
    error := fs.error.getD "" }

/-- The optional argument of the façade's `clearErrors`: one field name
(the `typeof input === 'string'` branch) or an array of field names (the
`typeof input === 'object'` branch). -/
inductive ClearErrorsInput where
  | one (name : FieldName)
  | many (names : List FieldName)
deriving DecidableEq, Repr

/-- Façade `clearErrors(input?)`: runs the matching targeted clear (string
branch, array branch, or neither when the argument is absent), then
UNCONDITIONALLY calls the engine's full `clearErrors()` — the final
statement of the source function runs on every path. -/
def clearErrors (e : FormEngine) (input : Option ClearErrorsInput) : FormEngine :=
  let e₁ :=
    match input with
    | some (ClearErrorsInput.one n) => e.clearErrorsField n
    | some (ClearErrorsInput.many ns) => e.clearErrorsFields ns
    | none => e
  e₁.clearErrorsAll

/-- Façade `resetForm(values?, options?)`: when `values` is non-null the
engine resets to `values`, otherwise to the construction-time
`props.defaultValues`; `options` is passed through verbatim on both
branches. -/
def resetForm (propDefaults : ValueMap) (e : FormEngine) (values : Option ValueMap)
    (options : KeepStateOptions) : FormEngine :=
  match values with
  | some v => e.reset v options
  | none => e.reset propDefaults options

/-- Return shape of the façade's `debugMode()` (`DebugModeState`). -/
structure DebugModeState where
  defaultValues : ValueMap
  currentState : ValueMap
  isValid : Bool
  errors : ErrorMap
  hasBeenUpdated : Bool
deriving DecidableEq, Repr

/-- Façade `debugMode()`: destructures `formState()` and rebuilds the same
shape, negating `isValid` a second time (`isValid: !isValid` again); no
other field is transformed or copied. -/
def debugMode (e : FormEngine) : DebugModeState :=
  let fs := formState e
  { defaultValues := fs.defaultValues
    currentState := fs.currentState
    isValid := !fs.isValid
    errors := fs.errors
    hasBeenUpdated := fs.hasBeenUpdated }

/-! ### The `withBaseField` higher-order component (HOC source file)

`WithFormHandlerField` resolves, per render, each injected prop by
preferring the value derived from the attached `formhandler` over the
explicitly passed prop, via optional chaining and `??`. -/

/-- The two fallback-resolved props of interest injected into the wrapped
component (`error` and `helperText`). -/
structure InjectedFieldProps where
  error : Option Bool
  helperText : Option String
deriving DecidableEq, Repr

/-- Per-render prop resolution in `WithFormHandlerField`:
`error := props.formhandler?.fieldState(props.name).invalid ?? props.error`
and
`helperText := props.formhandler?.fieldState(props.name).error ?? props.helperText`.
Optional chaining yields `undefined` (`none`) when no form handler is
attached, and `??` then falls back to the explicitly passed prop. -/
def WithFormHandlerField.render (formhandler : Option FormEngine) (name : FieldName)
    (propsError : Option Bool) (propsHelperText : Option String) : InjectedFieldProps :=
  { error := (formhandler.map (fun fh => (fieldState fh name).invalid)).orElse
      (fun _ => propsError)
    helperText := (formhandler.map (fun fh => (fieldState fh name).error)).orElse
      (fun _ => propsHelperText) }

/-! ### Demo-form context (`context.ts`)

`DemoFormContext` is created with `{} as any` as its default value;
`useDemoFormContext` is a plain `useContext` read.  React's `useContext`
returns the provided value when a Provider is above the reader, and the
context's default value otherwise; it never throws. -/

/-- The application-defined form mode held in the context. -/
inductive FormMode where
  | create
  | update
deriving DecidableEq, Repr

/-- The context value shape (`FormContext<DemoFormSchema>`): a form-handler
member and a mode member.  The default value `{} as any` is an object with
neither member present, so both are `undefined` (`none`). -/
structure DemoFormContextValue where
  formHandler : Option FormEngine
  mode : Option FormMode
deriving DecidableEq, Repr

/-- The default value `createContext` was given: the empty object cast to
the context type — both members absent. -/
def demoFormContextDefault : DemoFormContextValue :=
  { formHandler := none, mode := none }

/-- Model of React's `useContext`: the provided value when a Provider
supplies one, else the context's default value; a total function (no error
is raised at the context-read boundary). -/
def useContextModel {α : Type} (defaultValue : α) (provided : Option α) : α :=
  provided.getD defaultValue

/-- `useDemoFormContext()`: `useContext(DemoFormContext)`. -/
def useDemoFormContext (provided : Option DemoFormContextValue) : DemoFormContextValue :=
  useContextModel demoFormContextDefault provided

/-! ### Reference-level model for the debug-snapshot aliasing question

The source's `debugMode` destructures the object returned by `formState()`
and rebuilds an object literal from the very same member values; it contains
no copying operation.  Whether the snapshot is decoupled from the live form
therefore reduces to whether the members it reuses are live references.
The engine's `formState.errors` member is a live reference to the engine's
error object, so we model JS object identity explicitly for it: a heap of
error-map cells addressed by references. -/

/-- A JS object reference: an index into the heap. -/
abbrev JsRef := Nat

/-- A heap of error-map objects addressed by reference. -/
structure JsHeap where
  cells : List ErrorMap
deriving DecidableEq, Repr

/-- Dereference: the object a reference points at (empty for a dangling
reference, which never arises in the scenarios proved below). -/
def JsHeap.read (h : JsHeap) (r : JsRef) : ErrorMap :=
  (h.cells.get? r).getD []

/-- In-place mutation of the object a reference points at. -/
def JsHeap.write (h : JsHeap) (r : JsRef) (m : ErrorMap) : JsHeap :=
  { cells := h.cells.set r m }

/-- Allocate a fresh object holding `m`; returns the new heap and the
fresh reference. -/
def JsHeap.alloc (h : JsHeap) (m : ErrorMap) : JsHeap × JsRef :=
  ({ cells := h.cells ++ [m] }, h.cells.length)

/-- The live engine at the reference level: it holds its error object by
reference (react-hook-form's `formState.errors` is that live object). -/
structure FormEngineRef where
  errorsRef : JsRef
deriving DecidableEq, Repr

/-- Reference-level `formState()`: the `errors` member of the returned
object is the engine's live error object — destructuring copies the
reference, not the object. -/
structure FormStateRefResult where
  errorsRef : JsRef
deriving DecidableEq, Repr

/-- Reference-level façade `formState()`. -/
def formStateRef (e : FormEngineRef) : FormStateRefResult :=
  { errorsRef := e.errorsRef }

/-- Reference-level debug snapshot. -/
structure DebugModeRefResult where
  errorsRef : JsRef
deriving DecidableEq, Repr

/-- Reference-level `debugMode()` as written in the source: destructure
`formState()` and rebuild the literal from the same member references.  No
allocation or copy of the error object takes place (the heap is returned
unchanged). -/
def debugModeRef (h : JsHeap) (e : FormEngineRef) : JsHeap × DebugModeRefResult :=
  (h, { errorsRef := (formStateRef e).errorsRef })

/-- Modelled from the spec: the spec says `debugMode()` returns the
`formState()` shape "explicitly copied (no live references)".  A copying
`debugMode` would allocate a fresh error object holding the current
contents and hand out a reference to the copy. -/
def debugModeSpecCopy (h : JsHeap) (e : FormEngineRef) : JsHeap × DebugModeRefResult :=
  let alloc := h.alloc (h.read e.errorsRef)
  (alloc.1, { errorsRef := alloc.2 })

/-- A later mutation of the live form state: the engine records an error
for `name` by writing through its live error-object reference. -/
def FormEngineRef.setError (h : JsHeap) (e : FormEngineRef) (name : FieldName)
    (msg : String) : JsHeap :=
  h.write e.errorsRef (setEntry (h.read e.errorsRef) name msg)

/-! ### Helper lemmas about the association-list map operations -/

/-- After writing key `k`, looking up `k` yields the written value. -/
theorem lookupKey_setEntry_self {β : Type} (m : List (String × β)) (k : String) (v : β) :
    lookupKey k (setEntry m k v) = some v := by
  induction m with
  | nil => simp [setEntry, lookupKey]
  | cons p rest ih =>
      obtain ⟨k₁, v₁⟩ := p
      by_cases hk : k₁ = k
      · simp [setEntry, hk, lookupKey]
      · simp [setEntry, hk, lookupKey, ih]

/-- A successful lookup comes from a binding in the list. -/
theorem mem_of_lookupKey {β : Type} {m : List (String × β)} {k : String} {v : β}
    (h : lookupKey k m = some v) : (k, v) ∈ m := by
  induction m with
  | nil => simp [lookupKey] at h
  | cons p rest ih =>
      obtain ⟨k₁, v₁⟩ := p
      by_cases hk : k₁ = k
      · subst hk
        simp [lookupKey] at h
        subst h
        exact List.mem_cons_self _ _
      · simp [lookupKey, hk] at h
        exact List.mem_cons_of_mem _ (ih h)

/-- With unique keys, every binding is found by lookup. -/
theorem lookupKey_of_mem_nodup {β : Type} {m : List (String × β)} {k : String} {v : β}
    (hnd : (m.map Prod.fst).Nodup) (hmem : (k, v) ∈ m) : lookupKey k m = some v := by
  induction m with
  | nil => simp at hmem
  | cons p rest ih =>
      obtain ⟨k₁, v₁⟩ := p
      simp only [List.map_cons, List.nodup_cons] at hnd
      rcases List.mem_cons.mp hmem with h | h
      · cases h
        simp [lookupKey]
      · have hkmem : k ∈ rest.map Prod.fst := List.mem_map.mpr ⟨(k, v), h, rfl⟩
        have hk : k₁ ≠ k := by
          intro hkk
          rw [hkk] at hnd
          exact hnd.1 hkmem
        simp [lookupKey, hk]
        exact ih hnd.2 h

/-- Deep equality (lodash `isEqual` on flat objects) implies extensional
map equality, with no side condition. -/
theorem mapEquiv_of_isEqualDeep {β : Type} [DecidableEq β] {a b : List (String × β)}
    (h : isEqualDeep a b = true) : MapEquiv a b := by
  unfold isEqualDeep at h
  rw [Bool.and_eq_true, List.all_eq_true, List.all_eq_true] at h
  intro k
  cases hka : lookupKey k a with
  | some v =>
      have := h.1 _ (mem_of_lookupKey hka)
      simp only [decide_eq_true_eq] at this
      exact this.symm
  | none =>
      cases hkb : lookupKey k b with
      | some w =>
          have := h.2 _ (mem_of_lookupKey hkb)
          simp only [decide_eq_true_eq] at this
          rw [this] at hka
          exact absurd hka (by simp)
      | none => rfl

/-- Conversely, on maps with unique keys (as JS objects always have),
extensional equality implies deep equality. -/
theorem isEqualDeep_of_mapEquiv {β : Type} [DecidableEq β] {a b : List (String × β)}
    (hna : (a.map Prod.fst).Nodup) (hnb : (b.map Prod.fst).Nodup)
    (h : MapEquiv a b) : isEqualDeep a b = true := by
  unfold isEqualDeep
  rw [Bool.and_eq_true, List.all_eq_true, List.all_eq_true]
  constructor
  · intro p hp
    have : lookupKey p.1 a = some p.2 := lookupKey_of_mem_nodup hna hp
    simp [← h p.1, this]
  · intro p hp
    have : lookupKey p.1 b = some p.2 := lookupKey_of_mem_nodup hnb hp
    simp [h p.1, this]

/-- Deep equality is reflexive on maps with unique keys. -/
theorem isEqualDeep_refl_of_nodup {β : Type} [DecidableEq β] {m : List (String × β)}
    (hnd : (m.map Prod.fst).Nodup) : isEqualDeep m m = true :=
  isEqualDeep_of_mapEquiv hnd hnd (fun _ => rfl)

/-- Two maps differing at some key are not deeply equal. -/
theorem isEqualDeep_eq_false_of_ne_at {β : Type} [DecidableEq β]
    {a b : List (String × β)} {k : String}
    (h : lookupKey k a ≠ lookupKey k b) : isEqualDeep a b = false := by
  cases he : isEqualDeep a b with
  | false => rfl
  | true => exact absurd (mapEquiv_of_isEqualDeep he k) h

/-- A list without duplicates no longer contains an element after erasing
it. -/
theorem not_mem_erase_self_of_nodup {α : Type} [DecidableEq α] {l : List α} {a : α}
    (h : l.Nodup) : a ∉ l.erase a := by
  induction l with
  | nil => simp
  | cons b rest ih =>
      rw [List.nodup_cons] at h
      rw [List.erase_cons]
      by_cases hb : b = a
      · subst hb
        rw [if_pos (by simp)]
        exact h.1
      · rw [if_neg (by simp [hb])]
        intro hmem
        rcases List.mem_cons.mp hmem with h₁ | h₁
        · exact hb h₁.symm
        · exact ih h.2 h₁

/-! ### Claim theorems -/

/-- C1: For every form-handler instance, `formState()` returns an object
whose `isValid` field is the negation of the underlying form engine's
validity flag — `isValid` is true exactly when the underlying form is
invalid — alongside `defaultValues`, `currentState` (the live values), and
`errors`. -/
theorem formState_isValid_negation (e : FormEngine) :
    (formState e).isValid = !e.isValid
    ∧ ((formState e).isValid = true ↔ e.isValid = false)
    ∧ (formState e).defaultValues = e.defaultValues
    ∧ (formState e).currentState = e.getValues
    ∧ (formState e).errors = e.errors := by
  refine ⟨rfl, ?_, rfl, rfl, rfl⟩
  simp [formState]

/-- C2: For every input argument (single field name, array of field names,
or no argument), `clearErrors(input)` always also performs the full
clear-all on the underlying form instance after any targeted clear, so the
final error state after `clearErrors(input)` equals the error state after
`clearErrors()` with no argument (namely, no errors at all). -/
theorem clearErrors_final_state_clear_all (e : FormEngine) (input : Option ClearErrorsInput) :
    (clearErrors e input).errors = (clearErrors e none).errors
    ∧ (clearErrors e input).errors = [] := by
  refine ⟨?_, ?_⟩ <;>
    (cases input with
     | none => rfl
     | some i => cases i <;> rfl)

/-- C5: `resetForm(values, options)` resets the underlying engine to the
supplied values when they are provided (non-null) and otherwise to the
construction-time default values; in both branches `options` reaches the
engine's `reset` verbatim, and afterwards `formState().currentState` equals
the values used for the reset. -/
theorem resetForm_branches (d : ValueMap) (e : FormEngine) (v : ValueMap)
    (opts : KeepStateOptions) :
    resetForm d e (some v) opts = e.reset v opts
    ∧ resetForm d e none opts = e.reset d opts
    ∧ (formState (resetForm d e (some v) opts)).currentState = v
    ∧ (formState (resetForm d e none opts)).currentState = d :=
  ⟨rfl, rfl, rfl, rfl⟩

/-- C7: `fieldState(name)` returns `{isDirty, isTouched, invalid, error}`
where `error` is the engine's error message when one exists and the empty
string when none exists; `error` has type `String`, so it is never an
absent value. -/
theorem fieldState_error_normalized (e : FormEngine) (name : FieldName) :
    (fieldState e name).isDirty = (e.getFieldState name).isDirty
    ∧ (fieldState e name).isTouched = (e.getFieldState name).isTouched
    ∧ (fieldState e name).invalid = (e.getFieldState name).invalid
    ∧ (∀ m, lookupKey name e.errors = some m → (fieldState e name).error = m)
    ∧ (lookupKey name e.errors = none → (fieldState e name).error = "") := by
  refine ⟨rfl, rfl, rfl, ?_, ?_⟩
  · intro m hm
    simp [fieldState, FormEngine.getFieldState, hm]
  · intro hm
    simp [fieldState, FormEngine.getFieldState, hm]

/-- Witness for C7 at concrete states: a field with an error reports the
message, a field without one reports the empty string. -/
theorem fieldState_error_normalized_witness :
    (fieldState ({ FormEngine.init [] with errors := [("x", "required")] }) "x").error
        = "required"
    ∧ (fieldState (FormEngine.init [("x", JsonVal.str "")]) "x").error = "" := by
  constructor
  · exact (fieldState_error_normalized
      ({ FormEngine.init [] with errors := [("x", "required")] }) "x").2.2.2.1
      "required" (by decide)
  · exact (fieldState_error_normalized
      (FormEngine.init [("x", JsonVal.str "")]) "x").2.2.2.2 (by decide)

/-- C8: In the component produced by `withBaseField`, each injected prop
prefers the value derived from the attached form handler: with a handler
attached, `error` is the façade's `fieldState(name).invalid` and
`helperText` is the façade's `fieldState(name).error`, regardless of the
explicitly passed props; with no handler attached, the explicitly passed
props are used. -/
theorem withBaseField_prop_precedence (e : FormEngine) (name : FieldName)
    (propsError : Option Bool) (propsHelperText : Option String) :
    (WithFormHandlerField.render (some e) name propsError propsHelperText).error
        = some ((fieldState e name).invalid)
    ∧ (WithFormHandlerField.render (some e) name propsError propsHelperText).helperText
        = some ((fieldState e name).error)
    ∧ (WithFormHandlerField.render none name propsError propsHelperText).error = propsError
    ∧ (WithFormHandlerField.render none name propsError propsHelperText).helperText
        = propsHelperText :=
  ⟨rfl, rfl, rfl, rfl⟩

/-- C9: `debugMode().isValid` is the negation of `formState().isValid`
(the two negations in the source cancel), so `debugMode` reports the
engine's validity flag directly while `formState` reports its inverse, and
the two operations never agree on `isValid`. -/
theorem debugMode_isValid_double_negation (e : FormEngine) :
    (debugMode e).isValid = !(formState e).isValid
    ∧ (debugMode e).isValid = e.isValid
    ∧ (debugMode e).isValid ≠ (formState e).isValid := by
  refine ⟨rfl, ?_, ?_⟩ <;> cases hb : e.isValid <;> simp [debugMode, formState, hb]

/-- C10: Calling `useDemoFormContext` with no surrounding Provider returns
the context's default value — the empty object cast to the context type —
so no error is raised at the context-read boundary and both the
`formHandler` and `mode` members are absent; with a Provider, the provided
value is returned. -/
theorem useDemoFormContext_outside_provider :
    useDemoFormContext none = demoFormContextDefault
    ∧ (useDemoFormContext none).formHandler = none
    ∧ (useDemoFormContext none).mode = none
    ∧ ∀ v, useDemoFormContext (some v) = v :=
  ⟨rfl, rfl, rfl, fun _ => rfl⟩

/-- C4: `formState().hasBeenUpdated` is true iff the current form values
are not deeply (extensionally) equal to the engine's default values; in
particular it is false immediately after construction and after
`resetForm()` with no values argument, and it is true after any
`setFormValue` call writing a value different from the field's default.
The `Nodup` hypotheses state that the JS objects involved have unique
keys, which every JS object has. -/
theorem formState_hasBeenUpdated_iff (sch : Schema) (e : FormEngine) (d : ValueMap)
    (opts : KeepStateOptions) (args : SetValueProps)
    (hd : (d.map Prod.fst).Nodup)
    (hde : (e.defaultValues.map Prod.fst).Nodup)
    (hve : (e.values.map Prod.fst).Nodup)
    (hchange : lookupKey args.name e.defaultValues ≠ some args.value) :
    ((formState e).hasBeenUpdated = true ↔ ¬ MapEquiv e.defaultValues e.values)
    ∧ (formState (FormEngine.init d)).hasBeenUpdated = false
    ∧ (formState (resetForm d e none opts)).hasBeenUpdated = false
    ∧ (formState (setFormValue sch e args)).hasBeenUpdated = true := by
  refine ⟨?_, ?_, ?_, ?_⟩
  · constructor
    · intro h heq
      have htrue : isEqualDeep e.defaultValues e.values = true :=
        isEqualDeep_of_mapEquiv hde hve heq
      simp [formState, FormEngine.getValues, htrue] at h
    · intro h
      have hfalse : isEqualDeep e.defaultValues e.values = false := by
        cases hb : isEqualDeep e.defaultValues e.values with
        | false => rfl
        | true => exact absurd (mapEquiv_of_isEqualDeep hb) h
      simp [formState, FormEngine.getValues, hfalse]
  · simp [formState, FormEngine.init, FormEngine.getValues, isEqualDeep_refl_of_nodup hd]
  · simp [formState, resetForm, FormEngine.reset, FormEngine.getValues,
      isEqualDeep_refl_of_nodup hd]
  · have hl : lookupKey args.name (setEntry e.values args.name args.value)
        = some args.value := lookupKey_setEntry_self e.values args.name args.value
    have hne : lookupKey args.name e.defaultValues
        ≠ lookupKey args.name (setEntry e.values args.name args.value) := by
      rw [hl]
      exact hchange
    have hfd := isEqualDeep_eq_false_of_ne_at hne
    simp [formState, setFormValue, FormEngine.setValue, FormEngine.getValues, hfd]

/-- Witness for C4 at a concrete form: defaults `{name: ''}`, untouched at
mount, updated after `setFormValue` writes `'Ada'`. -/
theorem formState_hasBeenUpdated_iff_witness :
    lookupKey "name" (FormEngine.init [("name", JsonVal.str "")]).defaultValues
        ≠ some (JsonVal.str "Ada")
    ∧ (formState (FormEngine.init [("name", JsonVal.str "")])).hasBeenUpdated = false
    ∧ (formState (setFormValue (fun _ _ => none) (FormEngine.init [("name", JsonVal.str "")])
        { name := "name", value := JsonVal.str "Ada", options := none })).hasBeenUpdated
        = true := by
  refine ⟨by decide, ?_⟩
  have h := formState_hasBeenUpdated_iff (fun _ _ => none)
    (FormEngine.init [("name", JsonVal.str "")]) [("name", JsonVal.str "")]
    { keepErrors := false, keepDirty := false, keepTouched := false }
    { name := "name", value := JsonVal.str "Ada", options := none }
    (by decide) (by decide) (by decide) (by decide)
  exact ⟨h.2.1, h.2.2.2⟩

/-- Counterexample to C6 as stated: C6 asserts that after ANY
`setFormValue(name, value)` call (with the default options, so
`shouldDirty: true`), `fieldState(name)` reports the field as dirty.  At
the concrete input below, the field `x` has default value `''` and
`setFormValue` writes that very default back: the engine's dirty check
deep-compares the written value against the field's default and leaves the
field NOT dirty, while the value is nonetheless written and the merged
options did request `shouldDirty`. -/
theorem setFormValue_default_value_not_dirty :
    mergeSetValueConfig none = { shouldValidate := true, shouldDirty := true }
    ∧ lookupKey "x" (formState (setFormValue (fun _ _ => none)
        (FormEngine.init [("x", JsonVal.str "")])
        { name := "x", value := JsonVal.str "", options := none })).currentState
        = some (JsonVal.str "")
    ∧ (fieldState (setFormValue (fun _ _ => none)
        (FormEngine.init [("x", JsonVal.str "")])
        { name := "x", value := JsonVal.str "", options := none }) "x").isDirty
        = false := by
  refine ⟨rfl, by decide, by decide⟩

/-- C6 amended: `setFormValue` writes the value into the named field with
`shouldDirty` and `shouldValidate` both defaulting to true, and any
caller-supplied option overrides its default; afterwards the current form
values at the field hold the written value, validation has run over the
written values, and `fieldState(name)` reports the field as dirty exactly
when the written value differs from the field's default value. -/
theorem setFormValue_spec (sch : Schema) (e : FormEngine) (name : FieldName)
    (v : JsonVal) (b₁ b₂ : Bool) (args : SetValueProps)
    (hnd : e.dirtyFields.Nodup) :
    mergeSetValueConfig none = { shouldValidate := true, shouldDirty := true }
    ∧ mergeSetValueConfig (some { shouldValidate := some b₁, shouldDirty := some b₂ })
        = { shouldValidate := b₁, shouldDirty := b₂ }
    ∧ setFormValue sch e args
        = e.setValue sch args.name args.value (mergeSetValueConfig args.options)
    ∧ lookupKey name (formState (setFormValue sch e
        { name := name, value := v, options := none })).currentState = some v
    ∧ (setFormValue sch e { name := name, value := v, options := none }).errors
        = formErrors sch (setEntry e.values name v)
    ∧ ((fieldState (setFormValue sch e
        { name := name, value := v, options := none }) name).isDirty = true
        ↔ lookupKey name e.defaultValues ≠ some v) := by
  refine ⟨rfl, rfl, rfl, ?_, rfl, ?_⟩
  · simpa [formState, FormEngine.getValues, setFormValue, FormEngine.setValue,
      mergeSetValueConfig] using lookupKey_setEntry_self e.values name v
  · by_cases hp : lookupKey name e.defaultValues = some v
    · have hout : name ∉ e.dirtyFields.erase name := not_mem_erase_self_of_nodup hnd
      simp [fieldState, FormEngine.getFieldState, setFormValue, FormEngine.setValue,
        mergeSetValueConfig, hp, hout]
    · by_cases hm : name ∈ e.dirtyFields <;>
        simp [fieldState, FormEngine.getFieldState, setFormValue, FormEngine.setValue,
          mergeSetValueConfig, hp, hm]

/-- Witness for the amended C6 at a concrete form: writing `'Ada'` over
default `''` marks the field dirty; the default options are both true. -/
theorem setFormValue_spec_witness :
    ([] : List FieldName).Nodup
    ∧ mergeSetValueConfig none = { shouldValidate := true, shouldDirty := true }
    ∧ ((fieldState (setFormValue (fun _ _ => none)
        (FormEngine.init [("x", JsonVal.str "")])
        { name := "x", value := JsonVal.str "Ada", options := none }) "x").isDirty = true
        ↔ lookupKey "x" (FormEngine.init [("x", JsonVal.str "")]).defaultValues
            ≠ some (JsonVal.str "Ada")) := by
  have h := setFormValue_spec (fun _ _ => none) (FormEngine.init [("x", JsonVal.str "")])
    "x" (JsonVal.str "Ada") true true
    { name := "x", value := JsonVal.str "Ada", options := none } (by decide)
  exact ⟨List.nodup_nil, h.1, h.2.2.2.2.2⟩

/-- Counterexample to C3 as stated: C3 asserts that `debugMode()` returns
field values that are explicit copies decoupled from the live form state,
so that later mutations of the form do not retroactively change a
previously captured snapshot.  At the concrete input below, a snapshot is
captured while the live error object (reference 0) is empty; the engine
then records an error for field `x` by writing through its live
reference.  Reading the captured snapshot's `errors` member afterwards
yields the mutated contents — the snapshot aliases the live object, so the
later mutation did retroactively change it. -/
theorem debugMode_snapshot_counterexample :
    JsHeap.read { cells := [[]] }
        (debugModeRef { cells := [[]] } { errorsRef := 0 }).2.errorsRef = []
    ∧ JsHeap.read (FormEngineRef.setError { cells := [[]] } { errorsRef := 0 } "x" "required")
        (debugModeRef { cells := [[]] } { errorsRef := 0 }).2.errorsRef
        = [("x", "required")] :=
  ⟨by decide, by decide⟩

/-- C3 amended: `debugMode()` returns an object of the same shape as
`formState()` (with `isValid` negated a second time), but it performs no
copying — its members are the very values destructured from `formState()`.
At the reference level the snapshot's `errors` member is the engine's live
error-object reference and no allocation takes place, so a later mutation
of the live form state is visible through a previously captured snapshot;
a copying implementation (modelled from the spec's words as
`debugModeSpecCopy`) would instead be decoupled from the mutation. -/
theorem debugMode_shares_live_references (h : JsHeap) (e : FormEngineRef)
    (name : FieldName) (msg : String) (ve : FormEngine)
    (hr : e.errorsRef < h.cells.length) :
    (debugModeRef h e).2.errorsRef = e.errorsRef
    ∧ (debugModeRef h e).1 = h
    ∧ JsHeap.read (FormEngineRef.setError h e name msg) (debugModeRef h e).2.errorsRef
        = setEntry (JsHeap.read h e.errorsRef) name msg
    ∧ JsHeap.read (FormEngineRef.setError (debugModeSpecCopy h e).1 e name msg)
        (debugModeSpecCopy h e).2.errorsRef = JsHeap.read h e.errorsRef
    ∧ (debugMode ve).defaultValues = (formState ve).defaultValues
    ∧ (debugMode ve).currentState = (formState ve).currentState
    ∧ (debugMode ve).errors = (formState ve).errors
    ∧ (debugMode ve).hasBeenUpdated = (formState ve).hasBeenUpdated
    ∧ (debugMode ve).isValid = !(formState ve).isValid := by
  refine ⟨rfl, rfl, ?_, ?_, rfl, rfl, rfl, rfl, rfl⟩
  · simp [FormEngineRef.setError, JsHeap.read, JsHeap.write, debugModeRef, formStateRef,
      List.getElem?_set_eq_of_lt, hr]
  · have hne : e.errorsRef ≠ h.cells.length := Nat.ne_of_lt hr
    simp [debugModeSpecCopy, JsHeap.alloc, FormEngineRef.setError, JsHeap.write, JsHeap.read,
      List.getElem?_set_ne, List.getElem?_concat_length, hne]

/-- Witness for the amended C3 at a concrete heap: the snapshot produced
by the source's `debugMode` sees the later mutation, the copying variant
does not. -/
theorem debugMode_shares_live_references_witness :
    (0 : Nat) < ({ cells := [[]] } : JsHeap).cells.length
    ∧ JsHeap.read (FormEngineRef.setError { cells := [[]] } { errorsRef := 0 } "x" "m")
        (debugModeRef { cells := [[]] } { errorsRef := 0 }).2.errorsRef
        = setEntry (JsHeap.read { cells := [[]] } 0) "x" "m"
    ∧ JsHeap.read (FormEngineRef.setError
        (debugModeSpecCopy { cells := [[]] } { errorsRef := 0 }).1
        { errorsRef := 0 } "x" "m")
        (debugModeSpecCopy { cells := [[]] } { errorsRef := 0 }).2.errorsRef
        = JsHeap.read { cells := [[]] } 0 := by
  have h := debugMode_shares_live_references { cells := [[]] } { errorsRef := 0 } "x" "m"
    (FormEngine.init []) (by decide)
  exact ⟨by decide, h.2.2.1, h.2.2.2.1⟩
